import Mathlib

/-!
Shallow embedding of `m8_hw.py`, a command-line contact manager
(validated fields, contact records, an address book keyed by name,
an upcoming-birthday query, a command loop and pickle persistence),
together with proofs about its behaviour.

Conventions of the embedding:
* Python exceptions are modelled with `Except PyErr`; where Python code
  mutates an object before raising, the function returns the mutated
  state alongside an optional error.
* Python `datetime.date` values are modelled by their day ordinal
  (days since 1970-01-01, proleptic Gregorian); the civil conversions
  use the standard era-based algorithms.
* `datetime.now()` and the filesystem are inputs: functions that read
  them take the current date / the read outcome as a parameter.
-/

namespace M8

/-- Python exception values relevant to this program. -/
inductive PyErr : Type where
  | valueError (msg : String)
  | keyError (msg : String)
  | indexError (msg : String)
  | osError (msg : String)
  | unpicklingError (msg : String)
deriving DecidableEq, Repr

instance exceptDecEq {ε α : Type} [DecidableEq ε] [DecidableEq α] :
    DecidableEq (Except ε α) := fun x y =>
  match x, y with
  | .ok a, .ok b =>
    if h : a = b then .isTrue (by rw [h]) else .isFalse (by simp [h])
  | .error a, .error b =>
    if h : a = b then .isTrue (by rw [h]) else .isFalse (by simp [h])
  | .ok _, .error _ => .isFalse (by simp)
  | .error _, .ok _ => .isFalse (by simp)

/-- The exception classes caught by the `input_error` decorator:
`ValueError`, `KeyError`, `IndexError`. -/
def PyErr.catchable : PyErr → Bool
  | .valueError _ => true
  | .keyError _ => true
  | .indexError _ => true
  | _ => false

/-! ## Calendar arithmetic (the part of `datetime.date` the program uses) -/

/-- Gregorian leap-year rule, as in `calendar.isleap` / `datetime`. -/
def isLeapYear (y : Int) : Bool :=
  (y % 4 == 0 && y % 100 != 0) || y % 400 == 0

/-- Number of days in month `m` of year `y` (months 1..12). -/
def daysInMonth (y m : Int) : Int :=
  if m = 2 then (if isLeapYear y then 29 else 28)
  else if m = 4 ∨ m = 6 ∨ m = 9 ∨ m = 11 then 30
  else 31

/-- Day ordinal (days since 1970-01-01) of the civil date `(y, m, d)`,
era-based conversion for the proleptic Gregorian calendar. -/
def daysFromCivil (y m d : Int) : Int :=
  let y1 : Int := if m ≤ 2 then y - 1 else y
  let era : Int := y1 / 400
  let yoe : Int := y1 - era * 400
  let mp : Int := (m + 9) % 12
  let doy : Int := (153 * mp + 2) / 5 + d - 1
  let doe : Int := yoe * 365 + yoe / 4 - yoe / 100 + doy
  era * 146097 + doe - 719468

/-- Civil date `(y, m, d)` of a day ordinal, inverse conversion. -/
def civilFromDays (z0 : Int) : Int × Int × Int :=
  let z : Int := z0 + 719468
  let era : Int := z / 146097
  let doe : Int := z - era * 146097
  let yoe : Int := (doe - doe / 1460 + doe / 36524 - doe / 146096) / 365
  let y : Int := yoe + era * 400
  let doy : Int := doe - (365 * yoe + yoe / 4 - yoe / 100)
  let mp : Int := (5 * doy + 2) / 153
  let d : Int := doy - (153 * mp + 2) / 5 + 1
  let m : Int := if mp < 10 then mp + 3 else mp - 9
  (if m ≤ 2 then y + 1 else y, m, d)

/-- A Python `datetime.date`, represented by its day ordinal. -/
structure PyDate : Type where
  ord : Int
deriving DecidableEq, Repr

def PyDate.year (d : PyDate) : Int := (civilFromDays d.ord).1
def PyDate.month (d : PyDate) : Int := (civilFromDays d.ord).2.1
def PyDate.day (d : PyDate) : Int := (civilFromDays d.ord).2.2

/-- Python `date.weekday()`: Monday = 0 .. Sunday = 6.
Ordinal 0 is 1970-01-01, a Thursday (weekday 3). -/
def PyDate.weekday (d : PyDate) : Int := (d.ord + 3) % 7

/-- `datetime.date(y, m, d)`: validates ranges exactly as CPython does
(year 1..9999, month 1..12, day 1..days-in-month) and raises
`ValueError` otherwise. -/
def mkDate (y m d : Int) : Except PyErr PyDate :=
  if ¬ (1 ≤ y ∧ y ≤ 9999) then .error (.valueError "year is out of range")
  else if ¬ (1 ≤ m ∧ m ≤ 12) then .error (.valueError "month must be in 1..12")
  else if ¬ (1 ≤ d ∧ d ≤ daysInMonth y m) then
    .error (.valueError "day is out of range for month")
  else .ok ⟨daysFromCivil y m d⟩

/-- `d.replace(year := y)`: rebuild the date with the same month and day,
validating the result (this is the call that fails for Feb 29 replaced
into a non-leap year). -/
def PyDate.replaceYear (d : PyDate) (y : Int) : Except PyErr PyDate :=
  mkDate y d.month d.day

/-- Decimal rendering of a nonnegative integer left-padded with zeros. -/
def padInt (width : Nat) (n : Int) : String :=
  let s := toString n.toNat
  String.mk (List.replicate (width - s.length) '0') ++ s

/-- `d.strftime("%d.%m.%Y")`: zero-padded day, month and 4-digit year. -/
def formatDate (d : PyDate) : String :=
  padInt 2 d.day ++ "." ++ padInt 2 d.month ++ "." ++ padInt 4 d.year

/-! ## Field validators -/

/-- Alphabetic character test (ASCII fragment of Python `str.isalpha`;
every string the claims exercise is ASCII). -/
def pyIsAlphaChar (c : Char) : Bool := c.isAlpha

/-- Python `str.isalpha()`: true iff the string is nonempty and every
character is alphabetic (False on the empty string). -/
def pyStrIsAlpha (s : String) : Bool :=
  !s.data.isEmpty && s.data.all pyIsAlphaChar

/-- Python `str.isdigit()` (ASCII fragment): true iff the string is
nonempty and every character is a decimal digit. -/
def pyStrIsDigit (s : String) : Bool :=
  !s.data.isEmpty && s.data.all Char.isDigit

/-- `Name(value)`: raises `ValueError` unless `value.isalpha()`;
on success the stored value is the string itself. -/
def mkName (value : String) : Except PyErr String :=
  if pyStrIsAlpha value then .ok value
  else .error (.valueError "Name must contain only letters")

/-- `Phone(value)`: raises `ValueError` unless `value.isdigit()` and
`len(value) == 10`; on success the stored value is the string itself. -/
def mkPhone (value : String) : Except PyErr String :=
  if !pyStrIsDigit value || value.data.length != 10 then
    .error (.valueError "Phone number must contain 10 digits")
  else .ok value

/-- The 10-decimal-digits phone validity test. -/
def validPhone (value : String) : Bool :=
  pyStrIsDigit value && value.data.length == 10

/-- Numeric parse of a token of decimal digits (helper for `strptime`). -/
def digitsToInt (cs : List Char) : Int :=
  cs.foldl (fun acc c => acc * 10 + (c.toNat - '0'.toNat : Int)) 0

/-- `Birthday(value)`: `datetime.strptime(value, "%d.%m.%Y").date()`,
any parse or range failure replaced by the fixed-format `ValueError`.
The three dot-separated fields must be decimal (day and month 1-2
digits, year up to 4 digits) and form a valid calendar date. -/
def mkBirthday (value : String) : Except PyErr PyDate :=
  match value.split (· = '.') with
  | [ds, ms, ys] =>
    if pyStrIsDigit ds && pyStrIsDigit ms && pyStrIsDigit ys
        && ds.data.length ≤ 2 && ms.data.length ≤ 2 && ys.data.length ≤ 4 then
      match mkDate (digitsToInt ys.data) (digitsToInt ms.data) (digitsToInt ds.data) with
      | .ok d => .ok d
      | .error _ => .error (.valueError "Invalid date format. Use DD.MM.YYYY")
    else .error (.valueError "Invalid date format. Use DD.MM.YYYY")
  | _ => .error (.valueError "Invalid date format. Use DD.MM.YYYY")

/-! ## Record -/

/-- A contact record: one validated name, an ordered list of validated
phone values (the `Phone` wrapper stores only its string value), and an
optional birthday date. -/
structure Record : Type where
  name : String
  phones : List String
  birthday : Option PyDate
deriving DecidableEq, Repr

/-- `Record(name)`: validates the name and starts with no phones and no
birthday. -/
def mkRecord (name : String) : Except PyErr Record := do
  let n ← mkName name
  .ok ⟨n, [], none⟩

namespace Record

/-- `add_phone`: validate and append; duplicates permitted. -/
def add_phone (r : Record) (phone : String) : Except PyErr Record := do
  let v ← mkPhone phone
  .ok { r with phones := r.phones ++ [v] }

/-- `find_phone`: first phone whose value equals the argument, else `none`. -/
def find_phone (r : Record) (phone : String) : Option String :=
  r.phones.find? (· = phone)

/-- `remove_phone`: drop the first matching phone, or raise `ValueError`. -/
def remove_phone (r : Record) (phone : String) : Except PyErr Record :=
  match r.find_phone phone with
  | some _ => .ok { r with phones := r.phones.erase phone }
  | none => .error (.valueError "Phone number is not found")

/-- `edit_phone(old, new)`: if `old` is present, remove it and then append
a newly validated `new`; the `Phone` validation of `new` happens after the
removal, so on an invalid `new` the record is returned with `old` already
removed together with the raised error (Python mutates `self` in place
before the exception propagates). -/
def edit_phone (r : Record) (old new : String) : Record × Option PyErr :=
  match r.find_phone old with
  | some _ =>
    let r1 : Record := { r with phones := r.phones.erase old }
    match mkPhone new with
    | .ok v => ({ r1 with phones := r1.phones ++ [v] }, none)
    | .error e => (r1, some e)
  | none => (r, some (.valueError "Phone number is not found"))

/-- `add_birthday`: validate and set/overwrite the birthday. -/
def add_birthday (r : Record) (birthday : String) : Except PyErr Record := do
  let b ← mkBirthday birthday
  .ok { r with birthday := some b }

/-- `__str__`: "Contact name: X, phones: A; B, birthday: D". -/
def render (r : Record) : String :=
  "Contact name: " ++ r.name ++ ", phones: " ++ String.intercalate "; " r.phones
    ++ ", birthday: " ++
    (match r.birthday with
     | some b => formatDate b
     | none => "Not available")

end Record

/-! ## AddressBook -/

/-- Insert-or-update on an insertion-ordered association list: a present
key keeps its position and gets the new value, an absent key is appended
(the semantics of assignment into a Python `dict`). -/
def dictInsert (l : List (String × Record)) (k : String) (v : Record) :
    List (String × Record) :=
  match l with
  | [] => [(k, v)]
  | (k1, v1) :: rest =>
    if k1 = k then (k, v) :: rest else (k1, v1) :: dictInsert rest k v

/-- The address book: the `UserDict` backing mapping, as an
insertion-ordered association list from name to record. -/
structure AddressBook : Type where
  data : List (String × Record)
deriving DecidableEq, Repr

namespace AddressBook

/-- `AddressBook()`. -/
def empty : AddressBook := ⟨[]⟩

/-- `add_record`: `self.data[record.name.value] = record`. -/
def add_record (book : AddressBook) (record : Record) : AddressBook :=
  ⟨dictInsert book.data record.name record⟩

/-- `find_record`: `self.data.get(name, None)`. -/
def find_record (book : AddressBook) (name : String) : Option Record :=
  (book.data.find? (fun kv => kv.1 = name)).map Prod.snd

/-- `delete_record`: delete the key or raise `KeyError`. -/
def delete_record (book : AddressBook) (name : String) :
    Except PyErr AddressBook :=
  if (book.data.find? (fun kv => kv.1 = name)).isSome then
    .ok ⟨book.data.filter (fun kv => kv.1 ≠ name)⟩
  else .error (.keyError "Contact not found")

/-- The records of the book in iteration order (`self.data.values()`). -/
def records (book : AddressBook) : List Record :=
  book.data.map Prod.snd

end AddressBook

/-- An entry of the `get_upcoming_birthdays` result:
`{"name": ..., "birthday": ...}`. -/
structure Entry : Type where
  name : String
  birthday : String
deriving DecidableEq, Repr

/-- The loop body of `get_upcoming_birthdays` for one record: skip a
record with no birthday; otherwise build this year's occurrence with
`replace(year=today.year)` (which may raise), include the record iff the
signed day difference to today lies in [0, 7], and shift a Saturday or
Sunday occurrence forward to the following Monday before formatting. -/
def upcomingOne (today : PyDate) (r : Record) : Except PyErr (List Entry) :=
  match r.birthday with
  | none => .ok []
  | some b => do
    let occ ← b.replaceYear today.year
    if 0 ≤ occ.ord - today.ord ∧ occ.ord - today.ord ≤ 7 then
      let occ1 : PyDate :=
        if 5 ≤ occ.weekday then ⟨occ.ord + (7 - occ.weekday)⟩ else occ
      .ok [⟨r.name, formatDate occ1⟩]
    else
      .ok []

/-- The iteration of `get_upcoming_birthdays` over a list of records,
concatenating the per-record contributions and propagating the first
raised exception. -/
def upcomingList (today : PyDate) : List Record → Except PyErr (List Entry)
  | [] => .ok []
  | r :: rest => do
    let e ← upcomingOne today r
    let tail ← upcomingList today rest
    .ok (e ++ tail)

/-- `get_upcoming_birthdays`, with `datetime.now().date()` passed in as
`today`. -/
def AddressBook.get_upcoming_birthdays (book : AddressBook) (today : PyDate) :
    Except PyErr (List Entry) :=
  upcomingList today book.records

/-- Well-formedness of an address book, maintained by every operation of
the program: each record is stored under its own name, and keys are
unique. -/
def AddressBook.wf (book : AddressBook) : Prop :=
  (∀ kv ∈ book.data, kv.2.name = kv.1) ∧ (book.data.map Prod.fst).Nodup

/-! ## Command layer -/

/-- Python `str.split()` with no separator: split on runs of whitespace,
discarding empty pieces (so an all-whitespace string yields `[]`). -/
def pySplitAux : List Char → List Char → List String
  | [], [] => []
  | [], acc => [String.mk acc.reverse]
  | c :: cs, acc =>
    if c.isWhitespace then
      match acc with
      | [] => pySplitAux cs []
      | _ => String.mk acc.reverse :: pySplitAux cs []
    else pySplitAux cs (c :: acc)

/-- Python `user_input.split()`. -/
def pySplit (s : String) : List String := pySplitAux s.data []

/-- `parse_input`: `cmd, *args = user_input.split()` followed by
lowercasing the command. The unpacking raises `ValueError` when the split
produces no tokens (an empty or all-whitespace line); `parse_input` is
not wrapped by `input_error`, so that exception propagates. -/
def parse_input (user_input : String) : Except PyErr (String × List String) :=
  match pySplit user_input with
  | [] => .error (.valueError "not enough values to unpack (expected at least 1, got 0)")
  | cmd :: args => .ok (cmd.toLower, args)

/-- The result of one command handler: the (possibly partially) mutated
book together with either the returned message or a raised exception. -/
abbrev HandlerResult := AddressBook × Except PyErr String

/-- The `input_error` decorator: `ValueError` becomes its message,
`KeyError` becomes "Contact is not found", `IndexError` becomes
"Enter user name and phone/birthday"; any other exception propagates.
The mutations the handler performed before raising are kept (Python
mutates the shared book in place). -/
def input_error (h : HandlerResult) : Except PyErr (AddressBook × String) :=
  match h.2 with
  | .ok s => .ok (h.1, s)
  | .error (.valueError m) => .ok (h.1, m)
  | .error (.keyError _) => .ok (h.1, "Contact is not found")
  | .error (.indexError _) => .ok (h.1, "Enter user name and phone/birthday")
  | .error e => .error e

/-- `add_contact`: unpack `name, phone, *_` (raising `ValueError` on
fewer than two arguments), find or create the record, then append the
phone. A record created before a failing phone validation stays in the
book. -/
def add_contact (args : List String) (book : AddressBook) : HandlerResult :=
  match args with
  | name :: phone :: _ =>
    (match book.find_record name with
     | some r =>
       if phone ≠ "" then
         match r.add_phone phone with
         | .ok r1 => (book.add_record r1, .ok "Contact updated.")
         | .error e => (book, .error e)
       else (book, .ok "Contact updated.")
     | none =>
       match mkRecord name with
       | .error e => (book, .error e)
       | .ok r =>
         let book1 := book.add_record r
         if phone ≠ "" then
           match r.add_phone phone with
           | .ok r1 => (book1.add_record r1, .ok "Contact added.")
           | .error e => (book1, .error e)
         else (book1, .ok "Contact added."))
  | _ => (book, .error (.valueError "not enough values to unpack (expected at least 2, got fewer)"))

/-- `change_contact`: unpack three arguments, then `edit_phone` on the
found record; the partial mutation of a failing edit is written back. -/
def change_contact (args : List String) (book : AddressBook) : HandlerResult :=
  match args with
  | name :: old :: new1 :: _ =>
    (match book.find_record name with
     | some r =>
       match r.edit_phone old new1 with
       | (r1, none) => (book.add_record r1, .ok "Contact updated.")
       | (r1, some e) => (book.add_record r1, .error e)
     | none => (book, .ok "Contact is not found"))
  | _ => (book, .error (.valueError "not enough values to unpack (expected at least 3, got fewer)"))

/-- `phone_contact`: `args[0]` (raising `IndexError` on no arguments),
then render the found record's phones. -/
def phone_contact (args : List String) (book : AddressBook) : HandlerResult :=
  match args with
  | name :: _ =>
    (match book.find_record name with
     | some r =>
       (book, .ok ("Contact " ++ name ++ ": " ++ String.intercalate "; " r.phones))
     | none => (book, .ok "Contact is not found"))
  | [] => (book, .error (.indexError "list index out of range"))

/-- `show_all_contacts`. -/
def show_all_contacts (book : AddressBook) : HandlerResult :=
  if book.data.isEmpty then (book, .ok "Phonebook is empty")
  else (book, .ok (String.intercalate "\n" (book.records.map Record.render)))

/-- The `add_birthday` command handler. -/
def add_birthday_cmd (args : List String) (book : AddressBook) : HandlerResult :=
  match args with
  | name :: birthday :: _ =>
    (match book.find_record name with
     | some r =>
       match r.add_birthday birthday with
       | .ok r1 => (book.add_record r1, .ok "Birthday added.")
       | .error e => (book, .error e)
     | none => (book, .ok "Contact is not found"))
  | _ => (book, .error (.valueError "not enough values to unpack (expected at least 2, got fewer)"))

/-- The `show_birthday` command handler. -/
def show_birthday (args : List String) (book : AddressBook) : HandlerResult :=
  match args with
  | name :: _ =>
    (match book.find_record name with
     | some r =>
       (book, .ok ("Contact " ++ name ++ ": Birthday is " ++
         (match r.birthday with
          | some b => formatDate b
          | none => "not set")))
     | none => (book, .ok "Contact is not found"))
  | [] => (book, .error (.indexError "list index out of range"))

/-- The `birthdays` command handler: exceptions raised inside
`get_upcoming_birthdays` (the Feb-29 date construction) surface here and
are caught by `input_error`. -/
def birthdays (book : AddressBook) (today : PyDate) : HandlerResult :=
  match book.get_upcoming_birthdays today with
  | .ok upcoming =>
    if upcoming.isEmpty then
      (book, .ok "No upcoming birthdays in the next 7 days.")
    else
      (book, .ok (String.intercalate "\n"
        (upcoming.map (fun e => e.name ++ ": " ++ e.birthday))))
  | .error e => (book, .error e)

/-- The outcome of one iteration of the `main` loop: the line printed,
the book afterwards, and whether the loop exits (close/exit). -/
structure StepResult : Type where
  output : String
  book : AddressBook
  exits : Bool
deriving DecidableEq, Repr

/-- The command dispatch of the `main` loop body, given the parsed
command and arguments: each handler call is wrapped by `input_error`.
`today` stands for `datetime.now().date()` read inside the `birthdays`
command. -/
def dispatch (today : PyDate) (command : String) (args : List String)
    (book : AddressBook) : Except PyErr StepResult := do
  if command = "close" ∨ command = "exit" then
    .ok ⟨"Good bye!", book, true⟩
  else if command = "hello" then
    .ok ⟨"How can I help you?", book, false⟩
  else if command = "add" then
    let (b, s) ← input_error (add_contact args book)
    .ok ⟨s, b, false⟩
  else if command = "change" then
    let (b, s) ← input_error (change_contact args book)
    .ok ⟨s, b, false⟩
  else if command = "phone" then
    let (b, s) ← input_error (phone_contact args book)
    .ok ⟨s, b, false⟩
  else if command = "all" then
    let (b, s) ← input_error (show_all_contacts book)
    .ok ⟨s, b, false⟩
  else if command = "add-birthday" then
    let (b, s) ← input_error (add_birthday_cmd args book)
    .ok ⟨s, b, false⟩
  else if command = "show-birthday" then
    let (b, s) ← input_error (show_birthday args book)
    .ok ⟨s, b, false⟩
  else if command = "birthdays" then
    let (b, s) ← input_error (birthdays book today)
    .ok ⟨s, b, false⟩
  else
    .ok ⟨"Invalid command", book, false⟩

/-- One iteration of the `main` read-eval loop on one input line:
`parse_input` (whose `ValueError` on an empty line is not caught), then
dispatch on the lowercased command. -/
def stepLine (today : PyDate) (line : String) (book : AddressBook) :
    Except PyErr StepResult := do
  let (command, args) ← parse_input line
  dispatch today command args book

/-! ## Persistence

`pickle.dump` / `pickle.load` serialize the whole object graph of the
`AddressBook` (the dict entries, and for every record its name, phone
values and optional birthday) to an opaque blob and rebuild it on load;
the exact byte layout is not part of the external contract. The blob is
modelled as a token stream carrying exactly that object state, with a
decoder that can fail (as `pickle.load` fails on corrupt data). -/

/-- One token of the serialized blob. -/
inductive PTok : Type where
  | pInt (n : Int)
  | pStr (s : String)
  | pNone
deriving DecidableEq, Repr

/-- Serialize one record: name, phone count, phones, optional birthday
ordinal. -/
def encodeRecord (r : Record) : List PTok :=
  .pStr r.name :: .pInt r.phones.length :: r.phones.map .pStr ++
    [match r.birthday with
     | some b => .pInt b.ord
     | none => .pNone]

/-- Serialize the book: entry count, then each key and its record. -/
def encodeBook (book : AddressBook) : List PTok :=
  .pInt book.data.length ::
    (book.data.flatMap (fun kv => .pStr kv.1 :: encodeRecord kv.2))

/-- Read a string token. -/
def decodeStr : List PTok → Option (String × List PTok)
  | .pStr s :: rest => some (s, rest)
  | _ => none

/-- Read `n` string tokens. -/
def decodeStrs : Nat → List PTok → Option (List String × List PTok)
  | 0, toks => some ([], toks)
  | n + 1, toks => do
    let (s, rest) ← decodeStr toks
    let (ss, rest1) ← decodeStrs n rest
    some (s :: ss, rest1)

/-- Read one record. -/
def decodeRecord (toks : List PTok) : Option (Record × List PTok) := do
  let (name, r1) ← decodeStr toks
  match r1 with
  | .pInt n :: r2 =>
    if 0 ≤ n then do
      let (phones, r3) ← decodeStrs n.toNat r2
      match r3 with
      | .pInt b :: r4 => some (⟨name, phones, some ⟨b⟩⟩, r4)
      | .pNone :: r4 => some (⟨name, phones, none⟩, r4)
      | _ => none
    else none
  | _ => none

/-- Read `n` dict entries. -/
def decodeEntries : Nat → List PTok → Option (List (String × Record) × List PTok)
  | 0, toks => some ([], toks)
  | n + 1, toks => do
    let (k, r1) ← decodeStr toks
    let (rec1, r2) ← decodeRecord r1
    let (rest, r3) ← decodeEntries n r2
    some ((k, rec1) :: rest, r3)

/-- Rebuild a book from a blob; `none` models an `UnpicklingError` on a
blob that is not a serialized book. -/
def decodeBook : List PTok → Option AddressBook
  | .pInt n :: rest =>
    if 0 ≤ n then
      match decodeEntries n.toNat rest with
      | some (entries, []) => some ⟨entries⟩
      | _ => none
    else none
  | _ => none

/-- `save_data`: write the serialized blob of the book. -/
def save_data (book : AddressBook) : List PTok := encodeBook book

/-- The possible outcomes of opening and reading the data file. -/
inductive FileReadOutcome : Type where
  | fileNotFound
  | otherIOError
  | content (blob : List PTok)
deriving DecidableEq, Repr

/-- `load_data`: `pickle.load` from the opened file, with only
`FileNotFoundError` caught (yielding a fresh empty book); any other
I/O failure, and an unpicklable blob, raise an uncaught exception. -/
def load_data : FileReadOutcome → Except PyErr AddressBook
  | .fileNotFound => .ok AddressBook.empty
  | .otherIOError => .error (.osError "read failure")
  | .content blob =>
    match decodeBook blob with
    | some book => .ok book
    | none => .error (.unpicklingError "invalid load key")

/-! ## Helper lemmas -/

theorem mkPhone_ok_of_valid (s : String) (h : validPhone s = true) :
    mkPhone s = .ok s := by
  unfold validPhone at h
  unfold mkPhone
  simp only [Bool.and_eq_true, beq_iff_eq] at h
  simp [h.1, h.2]

theorem mkPhone_error_of_invalid (s : String) (h : validPhone s = false) :
    mkPhone s = .error (.valueError "Phone number must contain 10 digits") := by
  have hc : (!pyStrIsDigit s || s.data.length != 10) = true := by
    unfold validPhone at h
    rcases Bool.and_eq_false_iff.mp h with h1 | h1
    · simp [h1]
    · simp only [bne, h1, Bool.not_false, Bool.or_true]
  unfold mkPhone
  rw [if_pos hc]

theorem find?_eq_self_of_mem (l : List String) (p : String) (h : p ∈ l) :
    l.find? (· = p) = some p := by
  induction l with
  | nil => cases h
  | cons a t ih =>
    by_cases hap : a = p
    · subst hap
      simp [List.find?]
    · rcases List.mem_cons.mp h with h1 | h1
      · exact absurd h1.symm hap
      · rw [List.find?_cons_of_neg _ (by simpa using hap)]
        exact ih h1

theorem find?_eq_none_of_not_mem (l : List String) (p : String) (h : p ∉ l) :
    l.find? (· = p) = none := by
  rw [List.find?_eq_none]
  intro x hx
  simp only [decide_eq_true_eq]
  intro hxp
  exact h (hxp ▸ hx)

/-! ## C5: Name validation -/

/-- C5 counterexample: the claim asserts that constructing a `Name` from
the empty string succeeds; in the code `"".isalpha()` is `False`, so the
construction fails with the `ValueError`. -/
theorem name_empty_fails :
    mkName "" = .error (.valueError "Name must contain only letters") := rfl

/-- C5 (amended): `Name(value)` fails with the `ValueError`
"Name must contain only letters" if and only if `value` is empty or some
character of `value` is not alphabetic; otherwise it succeeds with the
value itself. -/
theorem name_validation_iff (value : String) :
    (mkName value = .error (.valueError "Name must contain only letters") ↔
      value.data = [] ∨ ∃ c ∈ value.data, pyIsAlphaChar c = false) ∧
    (mkName value = .ok value ↔
      value.data ≠ [] ∧ ∀ c ∈ value.data, pyIsAlphaChar c = true) := by
  by_cases hgood : pyStrIsAlpha value = true
  · have hmk : mkName value = .ok value := by simp [mkName, hgood]
    have hgood1 := hgood
    rw [pyStrIsAlpha, Bool.and_eq_true] at hgood1
    obtain ⟨hne1, hall1⟩ := hgood1
    have hne : value.data ≠ [] := by
      intro hnil
      rw [hnil] at hne1
      simp at hne1
    have hall : ∀ c ∈ value.data, pyIsAlphaChar c = true :=
      List.all_eq_true.mp hall1
    constructor
    · rw [hmk]
      apply iff_of_false (by simp)
      rintro (hnil | ⟨c, hc, hcf⟩)
      · exact hne hnil
      · rw [hall c hc] at hcf
        cases hcf
    · rw [hmk]
      exact iff_of_true rfl ⟨hne, hall⟩
  · have hbad : pyStrIsAlpha value = false := by
      simpa using hgood
    have hmk : mkName value = .error (.valueError "Name must contain only letters") := by
      simp [mkName, hbad]
    have hcond : value.data = [] ∨ ∃ c ∈ value.data, pyIsAlphaChar c = false := by
      rcases Bool.and_eq_false_iff.mp hbad with h1 | h1
      · left
        have : value.data.isEmpty = true := by simpa using h1
        exact List.isEmpty_iff.mp this
      · right
        rcases List.all_eq_false.mp h1 with ⟨c, hc, hcf⟩
        exact ⟨c, hc, by simpa using hcf⟩
    constructor
    · rw [hmk]
      exact iff_of_true rfl hcond
    · rw [hmk]
      apply iff_of_false (by simp)
      rintro ⟨hne2, hall2⟩
      rcases hcond with hnil | ⟨c, hc, hcf⟩
      · exact hne2 hnil
      · rw [hall2 c hc] at hcf
        cases hcf

/-- C5 witness: a string with a digit fails; a plain alphabetic string
succeeds. -/
theorem name_validation_iff_witness :
    mkName "John1" = .error (.valueError "Name must contain only letters") ∧
    mkName "John" = .ok "John" := by
  constructor
  · exact (name_validation_iff "John1").1.mpr (by decide)
  · exact (name_validation_iff "John").2.mpr (by decide)

/-! ## C6: edit_phone behaviour -/

/-- C6: `edit_phone(old, new)` fails with "Phone number is not found"
when `old` is absent; when `old` is present and `new` is a valid phone,
it removes the first occurrence of `old` and appends `new` at the end. -/
theorem edit_phone_spec (r : Record) (old new1 : String) :
    (old ∉ r.phones →
      r.edit_phone old new1 =
        (r, some (.valueError "Phone number is not found"))) ∧
    (old ∈ r.phones → validPhone new1 = true →
      r.edit_phone old new1 =
        ({ r with phones := r.phones.erase old ++ [new1] }, none)) := by
  constructor
  · intro h
    unfold Record.edit_phone Record.find_phone
    rw [find?_eq_none_of_not_mem _ _ h]
  · intro h hv
    unfold Record.edit_phone Record.find_phone
    rw [find?_eq_self_of_mem _ _ h, mkPhone_ok_of_valid _ hv]

/-- C6 witness: the spec's concrete example, plus the failure case. -/
theorem edit_phone_spec_witness :
    Record.edit_phone ⟨"John", ["1234567890"], none⟩ "1234567890" "0987654321" =
      (⟨"John", ["0987654321"], none⟩, none) ∧
    Record.edit_phone ⟨"John", ["1234567890"], none⟩ "5555555555" "0987654321" =
      (⟨"John", ["1234567890"], none⟩,
        some (.valueError "Phone number is not found")) := by
  constructor
  · have h := (edit_phone_spec ⟨"John", ["1234567890"], none⟩ "1234567890"
      "0987654321").2 (by decide) (by decide)
    rw [h]
    decide
  · have h := (edit_phone_spec ⟨"John", ["1234567890"], none⟩ "5555555555"
      "0987654321").1 (by decide)
    rw [h]

/-! ## C9: edit_phone is not atomic -/

/-- C9 counterexample: with a duplicated `old` phone, the failing edit
leaves the record changed but `old` is still present, contradicting the
claim that on this error the record is left "with old gone". -/
theorem edit_phone_duplicate_old_remains :
    Record.edit_phone ⟨"John", ["1234567890", "1234567890"], none⟩
        "1234567890" "short" =
      (⟨"John", ["1234567890"], none⟩,
        some (.valueError "Phone number must contain 10 digits")) ∧
    "1234567890" ∈
      (Record.edit_phone ⟨"John", ["1234567890", "1234567890"], none⟩
        "1234567890" "short").1.phones := by
  constructor
  · decide
  · decide

/-- C9 (amended): when `old` is present and `new` is invalid, the
validation error is raised only after the removal: the record is left
with the first occurrence of `old` removed and, provided the stored
phones are all valid (as the construction API guarantees), `new` absent. -/
theorem edit_phone_partial_mutation (r : Record) (old new1 : String)
    (hold : old ∈ r.phones) (hnew : validPhone new1 = false)
    (hinv : ∀ p ∈ r.phones, validPhone p = true) :
    r.edit_phone old new1 =
      ({ r with phones := r.phones.erase old },
        some (.valueError "Phone number must contain 10 digits")) ∧
    new1 ∉ r.phones.erase old := by
  constructor
  · unfold Record.edit_phone Record.find_phone
    rw [find?_eq_self_of_mem _ _ hold, mkPhone_error_of_invalid _ hnew]
  · intro hc
    have hmem : new1 ∈ r.phones := List.mem_of_mem_erase hc
    have := hinv new1 hmem
    rw [this] at hnew
    cases hnew

/-- C9 witness: a concrete failing edit with the partial state. -/
theorem edit_phone_partial_mutation_witness :
    Record.edit_phone ⟨"Ann", ["1234567890", "0987654321"], none⟩
        "1234567890" "12345" =
      (⟨"Ann", ["0987654321"], none⟩,
        some (.valueError "Phone number must contain 10 digits")) ∧
    "12345" ∉ (["1234567890", "0987654321"] : List String).erase "1234567890" := by
  have h := edit_phone_partial_mutation ⟨"Ann", ["1234567890", "0987654321"], none⟩
    "1234567890" "12345" (by decide) (by decide) (by decide)
  exact ⟨by rw [h.1]; decide, h.2⟩

/-! ## C7: add_record upsert semantics -/

theorem dictInsert_find_self (l : List (String × Record)) (k : String) (v : Record) :
    (dictInsert l k v).find? (fun kv => kv.1 = k) = some (k, v) := by
  induction l with
  | nil => simp [dictInsert, List.find?]
  | cons a t ih =>
    rw [dictInsert]
    by_cases hak : a.1 = k
    · rw [if_pos hak]
      rw [List.find?_cons_of_pos _ (by simp)]
    · rw [if_neg hak]
      rw [List.find?_cons_of_neg _ (by simpa using hak)]
      exact ih

theorem dictInsert_find_other (l : List (String × Record)) (k k1 : String)
    (v : Record) (h : k1 ≠ k) :
    (dictInsert l k v).find? (fun kv => kv.1 = k1) =
      l.find? (fun kv => kv.1 = k1) := by
  induction l with
  | nil =>
    show List.find? _ [(k, v)] = List.find? _ []
    rw [List.find?_cons_of_neg _ (by simp [Ne.symm h])]
  | cons a t ih =>
    rw [dictInsert]
    by_cases hak : a.1 = k
    · rw [if_pos hak]
      rw [List.find?_cons_of_neg _ (by simp [Ne.symm h]),
        List.find?_cons_of_neg _ (by simp [hak, Ne.symm h])]
    · rw [if_neg hak]
      by_cases hak1 : a.1 = k1
      · rw [List.find?_cons_of_pos _ (by simp [hak1]),
          List.find?_cons_of_pos _ (by simp [hak1])]
      · rw [List.find?_cons_of_neg _ (by simp [hak1]),
          List.find?_cons_of_neg _ (by simp [hak1])]
        exact ih

/-- C7: `add_record` has upsert semantics: it stores the record under
its own name, leaves every other key unchanged, and adding two records
with the same name leaves exactly the second one under that key while
every other entry of the book is untouched. -/
theorem add_record_upsert (book : AddressBook) (r1 r2 : Record)
    (h : r1.name = r2.name) :
    ((book.add_record r1).find_record r1.name = some r1) ∧
    (∀ k, k ≠ r1.name →
      (book.add_record r1).find_record k = book.find_record k) ∧
    (((book.add_record r1).add_record r2).find_record r2.name = some r2) ∧
    (∀ k, k ≠ r2.name →
      ((book.add_record r1).add_record r2).find_record k =
        book.find_record k) := by
  refine ⟨?_, ?_, ?_, ?_⟩
  · unfold AddressBook.add_record AddressBook.find_record
    rw [dictInsert_find_self]
    rfl
  · intro k hk
    unfold AddressBook.add_record AddressBook.find_record
    rw [dictInsert_find_other _ _ _ _ hk]
  · unfold AddressBook.add_record AddressBook.find_record
    rw [dictInsert_find_self]
    rfl
  · intro k hk
    unfold AddressBook.add_record AddressBook.find_record
    rw [dictInsert_find_other _ _ _ _ hk, dictInsert_find_other _ _ _ _ (h ▸ hk)]

/-- C7 witness: two adds under the name "John"; the second record wins
and an unrelated key is unchanged. -/
theorem add_record_upsert_witness :
    ((AddressBook.empty.add_record ⟨"John", ["1234567890"], none⟩).add_record
        ⟨"John", ["0987654321"], none⟩).find_record "John" =
      some ⟨"John", ["0987654321"], none⟩ ∧
    ((AddressBook.empty.add_record ⟨"John", ["1234567890"], none⟩).add_record
        ⟨"John", ["0987654321"], none⟩).find_record "Ann" =
      AddressBook.empty.find_record "Ann" := by
  have h := add_record_upsert AddressBook.empty ⟨"John", ["1234567890"], none⟩
    ⟨"John", ["0987654321"], none⟩ rfl
  exact ⟨h.2.2.1, h.2.2.2 "Ann" (by decide)⟩

/-! ## C3: save/load round trip -/

theorem decodeStrs_encode (ps : List String) (rest : List PTok) :
    decodeStrs ps.length (ps.map .pStr ++ rest) = some (ps, rest) := by
  induction ps with
  | nil => rfl
  | cons p t ih =>
    simp only [List.length_cons, List.map_cons, List.cons_append]
    rw [decodeStrs]
    simp [decodeStr, ih]

theorem decodeRecord_encode (r : Record) (rest : List PTok) :
    decodeRecord (encodeRecord r ++ rest) = some (r, rest) := by
  obtain ⟨n, ps, bd⟩ := r
  unfold encodeRecord decodeRecord
  simp only [List.cons_append, List.append_assoc]
  rw [decodeStr]
  simp only [Option.bind_eq_bind, Option.some_bind]
  have hnn : (0 : Int) ≤ ps.length := by positivity
  rw [if_pos hnn]
  have htn : ((ps.length : Int)).toNat = ps.length := Int.toNat_natCast _
  rw [htn, decodeStrs_encode]
  cases bd with
  | none => simp
  | some b => simp

theorem decodeEntries_encode (entries : List (String × Record)) (rest : List PTok) :
    decodeEntries entries.length
      (entries.flatMap (fun kv => .pStr kv.1 :: encodeRecord kv.2) ++ rest) =
      some (entries, rest) := by
  induction entries with
  | nil => rfl
  | cons a t ih =>
    simp only [List.length_cons, List.flatMap_cons, List.cons_append,
      List.append_assoc]
    rw [decodeEntries]
    simp [decodeStr, decodeRecord_encode, ih]

/-- C3: saving any address book and loading the resulting blob yields
the very same book: every name maps to a record with the same phones and
the same birthday. -/
theorem save_load_roundtrip (book : AddressBook) :
    load_data (.content (save_data book)) = .ok book := by
  have hdec : decodeBook (save_data book) = some book := by
    unfold save_data encodeBook
    rw [decodeBook]
    have hnn : (0 : Int) ≤ book.data.length := by positivity
    rw [if_pos hnn]
    have htn : ((book.data.length : Int)).toNat = book.data.length :=
      Int.toNat_natCast _
    rw [htn]
    have hde := decodeEntries_encode book.data []
    rw [List.append_nil] at hde
    rw [hde]
  simp only [load_data, hdec]

/-- C3 witness: the round trip on a concrete two-record book. -/
theorem save_load_roundtrip_witness :
    load_data (.content (save_data ⟨[("John",
        ⟨"John", ["1234567890"], some ⟨daysFromCivil 2000 1 10⟩⟩),
      ("Ann", ⟨"Ann", [], none⟩)]⟩)) =
      .ok ⟨[("John", ⟨"John", ["1234567890"], some ⟨daysFromCivil 2000 1 10⟩⟩),
        ("Ann", ⟨"Ann", [], none⟩)]⟩ :=
  save_load_roundtrip ⟨[("John",
    ⟨"John", ["1234567890"], some ⟨daysFromCivil 2000 1 10⟩⟩),
    ("Ann", ⟨"Ann", [], none⟩)]⟩

/-! ## C8: load behaviour -/

/-- C8 counterexample: a read failure other than absence of the file
(e.g. a permission error) does not yield an empty book; the exception
propagates out of `load_data`, contradicting the claim that any read
failure yields an empty book. -/
theorem load_other_error_raises :
    load_data .otherIOError = .error (.osError "read failure") := rfl

/-- C8 (amended): at session start `load_data` returns the decoded book
when the file is readable and well formed, returns a fresh empty book
exactly on absence of the file (`FileNotFoundError`), and re-raises any
other I/O failure as well as the unpickling failure on corrupt content. -/
theorem load_data_behavior :
    (load_data .fileNotFound = .ok AddressBook.empty) ∧
    (load_data .otherIOError = .error (.osError "read failure")) ∧
    (∀ blob book, decodeBook blob = some book →
      load_data (.content blob) = .ok book) ∧
    (∀ blob, decodeBook blob = none →
      load_data (.content blob) = .error (.unpicklingError "invalid load key")) := by
  refine ⟨rfl, rfl, ?_, ?_⟩
  · intro blob book h
    simp only [load_data, h]
  · intro blob h
    simp only [load_data, h]

/-- C8 witness: a well-formed blob loads to its book; a corrupt blob
raises. -/
theorem load_data_behavior_witness :
    load_data (.content (save_data AddressBook.empty)) = .ok AddressBook.empty ∧
    load_data (.content [.pStr "junk"]) =
      .error (.unpicklingError "invalid load key") := by
  exact ⟨load_data_behavior.2.2.1 _ AddressBook.empty (by decide),
    load_data_behavior.2.2.2 _ (by decide)⟩

/-! ## Birthday-window machinery -/

theorem replaceYear_feb29 (b : PyDate) (y : Int) (hm : b.month = 2)
    (hd : b.day = 29) (hleap : isLeapYear y = false) :
    ∃ e, b.replaceYear y = .error e := by
  unfold PyDate.replaceYear
  rw [hm, hd]
  by_cases hy : 1 ≤ y ∧ y ≤ 9999
  · refine ⟨.valueError "day is out of range for month", ?_⟩
    have hdm : daysInMonth y 2 = 28 := by simp [daysInMonth, hleap]
    rw [mkDate, if_neg (not_not_intro hy), if_neg (by norm_num), hdm,
      if_pos (by norm_num)]
  · exact ⟨.valueError "year is out of range", by rw [mkDate, if_pos hy]⟩

theorem upcomingOne_error_of_feb29 (today : PyDate) (r : Record) (b : PyDate)
    (hb : r.birthday = some b) (hm : b.month = 2) (hd : b.day = 29)
    (hleap : isLeapYear today.year = false) :
    ∃ e, upcomingOne today r = .error e := by
  obtain ⟨e, he⟩ := replaceYear_feb29 b today.year hm hd hleap
  refine ⟨e, ?_⟩
  simp only [upcomingOne, hb, he]
  rfl

theorem upcomingList_error_of_mem (today : PyDate) (l : List Record)
    (r : Record) (hr : r ∈ l) (he : ∃ e, upcomingOne today r = .error e) :
    ∃ e1, upcomingList today l = .error e1 := by
  induction l with
  | nil => cases hr
  | cons a t ih =>
    cases h1 : upcomingOne today a with
    | error e => exact ⟨e, by rw [upcomingList, h1]; rfl⟩
    | ok le =>
      rcases List.mem_cons.mp hr with rfl | hrt
      · obtain ⟨e, he1⟩ := he
        rw [he1] at h1
        cases h1
      · obtain ⟨e1, he1⟩ := ih hrt
        refine ⟨e1, ?_⟩
        rw [upcomingList, h1]
        show (upcomingList today t) >>= _ = _
        rw [he1]
        rfl

/-- C4: a record whose stored birthday is February 29, queried in a
non-leap current year, makes `get_upcoming_birthdays` raise at the
`replace(year=today.year)` date construction: the whole query returns an
error instead of a list. -/
theorem feb29_nonleap_fails (today : PyDate) (book : AddressBook)
    (r : Record) (b : PyDate) (hr : r ∈ book.records)
    (hb : r.birthday = some b) (hm : b.month = 2) (hd : b.day = 29)
    (hleap : isLeapYear today.year = false) :
    ∃ e, book.get_upcoming_birthdays today = .error e :=
  upcomingList_error_of_mem today book.records r hr
    (upcomingOne_error_of_feb29 today r b hb hm hd hleap)

/-- C4 witness: a book holding a Feb 29 birthday, queried on 2025-03-01
(2025 is not a leap year). -/
theorem feb29_nonleap_fails_witness :
    ∃ e, (AddressBook.empty.add_record
        ⟨"Ann", [], some ⟨daysFromCivil 2000 2 29⟩⟩).get_upcoming_birthdays
        ⟨daysFromCivil 2025 3 1⟩ = .error e :=
  feb29_nonleap_fails ⟨daysFromCivil 2025 3 1⟩
    (AddressBook.empty.add_record ⟨"Ann", [], some ⟨daysFromCivil 2000 2 29⟩⟩)
    ⟨"Ann", [], some ⟨daysFromCivil 2000 2 29⟩⟩ ⟨daysFromCivil 2000 2 29⟩
    (by decide) (by decide) (by decide) (by decide) (by decide)

theorem upcomingOne_of_occ (today : PyDate) (r : Record) (b occ : PyDate)
    (hb : r.birthday = some b) (hocc : b.replaceYear today.year = .ok occ) :
    upcomingOne today r = .ok
      (if 0 ≤ occ.ord - today.ord ∧ occ.ord - today.ord ≤ 7 then
        [⟨r.name, formatDate
          (if 5 ≤ occ.weekday then ⟨occ.ord + (7 - occ.weekday)⟩ else occ)⟩]
      else []) := by
  simp only [upcomingOne, hb, hocc]
  by_cases hw : 0 ≤ occ.ord - today.ord ∧ occ.ord - today.ord ≤ 7
  · rw [if_pos hw]
    show (if 0 ≤ occ.ord - today.ord ∧ occ.ord - today.ord ≤ 7 then _ else _) = _
    rw [if_pos hw]
  · rw [if_neg hw]
    show (if 0 ≤ occ.ord - today.ord ∧ occ.ord - today.ord ≤ 7 then _ else _) = _
    rw [if_neg hw]

theorem upcomingOne_ok_entry (today : PyDate) (r : Record) (le : List Entry)
    (h : upcomingOne today r = .ok le) (e : Entry) (he : e ∈ le) :
    e.name = r.name ∧ ∃ b occ : PyDate, r.birthday = some b ∧
      b.replaceYear today.year = .ok occ ∧
      0 ≤ occ.ord - today.ord ∧ occ.ord - today.ord ≤ 7 ∧
      e.birthday = formatDate
        (if 5 ≤ occ.weekday then ⟨occ.ord + (7 - occ.weekday)⟩ else occ) := by
  cases hb : r.birthday with
  | none =>
    simp only [upcomingOne, hb] at h
    cases h
    cases he
  | some b =>
    cases hocc : b.replaceYear today.year with
    | error err =>
      simp only [upcomingOne, hb, hocc] at h
      cases h
    | ok occ =>
      rw [upcomingOne_of_occ today r b occ hb hocc] at h
      by_cases hw : 0 ≤ occ.ord - today.ord ∧ occ.ord - today.ord ≤ 7
      · rw [if_pos hw] at h
        cases h
        rcases List.mem_singleton.mp he with rfl
        exact ⟨rfl, b, occ, rfl, hocc, hw.1, hw.2, rfl⟩
      · rw [if_neg hw] at h
        cases h
        cases he

theorem upcomingList_ok_mem (today : PyDate) (l : List Record)
    (res : List Entry) (h : upcomingList today l = .ok res) (e : Entry) :
    e ∈ res ↔ ∃ r ∈ l, ∃ le, upcomingOne today r = .ok le ∧ e ∈ le := by
  induction l generalizing res with
  | nil =>
    cases h
    simp
  | cons a t ih =>
    cases h1 : upcomingOne today a with
    | error err =>
      rw [upcomingList, h1] at h
      cases h
    | ok le =>
      cases h2 : upcomingList today t with
      | error err =>
        rw [upcomingList, h1] at h
        revert h
        show ((upcomingList today t) >>= _) = _ → _
        rw [h2]
        intro h
        cases h
      | ok tail =>
        rw [upcomingList, h1] at h
        revert h
        show ((upcomingList today t) >>= _) = _ → _
        rw [h2]
        intro h
        cases h
        constructor
        · intro hmem
          rcases List.mem_append.mp hmem with hl | hr
          · exact ⟨a, List.mem_cons_self a t, le, h1, hl⟩
          · rcases (ih tail h2).mp hr with ⟨r, hrmem, le1, hle1, hein⟩
            exact ⟨r, List.mem_cons_of_mem a hrmem, le1, hle1, hein⟩
        · rintro ⟨r, hrmem, le1, hle1, hein⟩
          rcases List.mem_cons.mp hrmem with rfl | hrt
          · rw [h1] at hle1
            cases hle1
            exact List.mem_append_left _ hein
          · exact List.mem_append_right _
              ((ih tail h2).mpr ⟨r, hrt, le1, hle1, hein⟩)

theorem wf_record_name_inj (book : AddressBook) (hwf : book.wf)
    (r1 r2 : Record) (h1 : r1 ∈ book.records) (h2 : r2 ∈ book.records)
    (hn : r1.name = r2.name) : r1 = r2 := by
  obtain ⟨p, hp, hp2⟩ := List.mem_map.mp h1
  obtain ⟨q, hq, hq2⟩ := List.mem_map.mp h2
  have hk : p.1 = q.1 := by
    rw [← hwf.1 p hp, ← hwf.1 q hq, hp2, hq2]
    exact hn
  have hpq : p = q := List.inj_on_of_nodup_map hwf.2 hp hq hk
  rw [← hp2, ← hq2, hpq]

/-! ## C1: the birthday window and the weekend shift -/

/-- C1: in a well-formed book, a record with a birthday whose
current-year occurrence `occ` exists contributes an entry to a
successful `get_upcoming_birthdays` run if and only if the day count
from today to the unshifted occurrence lies in [0, 7]; and the reported
date of that entry is the occurrence itself on Monday-Friday, while a
Saturday/Sunday occurrence is reported as the following Monday (the
unique Monday one or two days later). -/
theorem upcoming_window_iff (today : PyDate) (book : AddressBook)
    (r : Record) (b occ : PyDate) (hwf : book.wf) (hr : r ∈ book.records)
    (hb : r.birthday = some b) (hocc : b.replaceYear today.year = .ok occ)
    (res : List Entry)
    (hres : book.get_upcoming_birthdays today = .ok res) :
    ((∃ e ∈ res, e.name = r.name) ↔
      (0 ≤ occ.ord - today.ord ∧ occ.ord - today.ord ≤ 7)) ∧
    (∀ e ∈ res, e.name = r.name →
      (occ.weekday < 5 → e.birthday = formatDate occ) ∧
      (5 ≤ occ.weekday →
        ∃ m : PyDate, m.weekday = 0 ∧ occ.ord < m.ord ∧
          m.ord ≤ occ.ord + 2 ∧ e.birthday = formatDate m)) := by
  have hmem := upcomingList_ok_mem today book.records res hres
  have main : ∀ e ∈ res, e.name = r.name →
      (0 ≤ occ.ord - today.ord ∧ occ.ord - today.ord ≤ 7) ∧
      e.birthday = formatDate
        (if 5 ≤ occ.weekday then ⟨occ.ord + (7 - occ.weekday)⟩ else occ) := by
    intro e hein hename
    rcases (hmem e).mp hein with ⟨r1, hr1mem, le1, hle1, hein1⟩
    obtain ⟨hname1, b1, occ1, hb1, hocc1, hw0, hw7, hfmt⟩ :=
      upcomingOne_ok_entry today r1 le1 hle1 e hein1
    have hrr : r1 = r :=
      wf_record_name_inj book hwf r1 r hr1mem hr (hname1 ▸ hename)
    subst hrr
    rw [hb] at hb1
    cases hb1
    rw [hocc] at hocc1
    cases hocc1
    exact ⟨⟨hw0, hw7⟩, hfmt⟩
  constructor
  · constructor
    · rintro ⟨e, hein, hename⟩
      exact (main e hein hename).1
    · intro hw
      refine ⟨⟨r.name, formatDate
        (if 5 ≤ occ.weekday then ⟨occ.ord + (7 - occ.weekday)⟩ else occ)⟩,
        ?_, rfl⟩
      refine (hmem _).mpr
        ⟨r, hr, _, upcomingOne_of_occ today r b occ hb hocc, ?_⟩
      rw [if_pos hw]
      exact List.mem_singleton_self _
  · intro e hein hename
    have h2 := (main e hein hename).2
    constructor
    · intro hlt
      rw [if_neg (by omega)] at h2
      exact h2
    · intro hge
      rw [if_pos hge] at h2
      refine ⟨⟨occ.ord + (7 - occ.weekday)⟩, ?_, ?_, ?_, h2⟩
      · show (occ.ord + (7 - (occ.ord + 3) % 7) + 3) % 7 = 0
        omega
      · show occ.ord < occ.ord + (7 - (occ.ord + 3) % 7)
        omega
      · show occ.ord + (7 - (occ.ord + 3) % 7) ≤ occ.ord + 2
        unfold PyDate.weekday at hge
        omega

/-- C1 witness: today 2026-01-03; a birthday on January 10 has its 2026
occurrence exactly 7 days ahead, a Saturday, so it is included and
reported as Monday 2026-01-12. -/
theorem upcoming_window_iff_witness :
    (AddressBook.empty.add_record
        ⟨"John", ["1234567890"], some ⟨daysFromCivil 2000 1 10⟩⟩).get_upcoming_birthdays
        ⟨daysFromCivil 2026 1 3⟩ = .ok [⟨"John", "12.01.2026"⟩] ∧
    (∃ e ∈ [(⟨"John", "12.01.2026"⟩ : Entry)], e.name = "John") := by
  refine ⟨by decide, ?_⟩
  have h := upcoming_window_iff ⟨daysFromCivil 2026 1 3⟩
    (AddressBook.empty.add_record
      ⟨"John", ["1234567890"], some ⟨daysFromCivil 2000 1 10⟩⟩)
    ⟨"John", ["1234567890"], some ⟨daysFromCivil 2000 1 10⟩⟩
    ⟨daysFromCivil 2000 1 10⟩ ⟨daysFromCivil 2026 1 10⟩
    ⟨by decide, by decide⟩ (by decide) (by decide) (by decide)
    [⟨"John", "12.01.2026"⟩] (by decide)
  exact h.1.mpr (by decide)

/-! ## C10: no wrap across the year boundary -/

/-- C10: a record whose current-year occurrence falls strictly before
today is never included in a successful `get_upcoming_birthdays` result,
even when its next real occurrence (in the following year) is within 7
days — the window never wraps across the year boundary. -/
theorem no_year_wraparound (today : PyDate) (book : AddressBook)
    (r : Record) (b occ : PyDate) (hwf : book.wf) (hr : r ∈ book.records)
    (hb : r.birthday = some b) (hocc : b.replaceYear today.year = .ok occ)
    (hpast : occ.ord < today.ord) (res : List Entry)
    (hres : book.get_upcoming_birthdays today = .ok res) :
    ∀ e ∈ res, e.name ≠ r.name := by
  intro e hein hename
  have hmem := upcomingList_ok_mem today book.records res hres
  rcases (hmem e).mp hein with ⟨r1, hr1mem, le1, hle1, hein1⟩
  obtain ⟨hname1, b1, occ1, hb1, hocc1, hw0, _, _⟩ :=
    upcomingOne_ok_entry today r1 le1 hle1 e hein1
  have hrr : r1 = r :=
    wf_record_name_inj book hwf r1 r hr1mem hr (hname1 ▸ hename)
  subst hrr
  rw [hb] at hb1
  cases hb1
  rw [hocc] at hocc1
  cases hocc1
  omega

/-- C10 witness: today 2024-12-28 and a January 2 birthday: the next
real occurrence (2025-01-05) is within 7 days, yet nothing is
reported, because the 2024 occurrence lies in the past. -/
theorem no_year_wraparound_witness :
    (AddressBook.empty.add_record
        ⟨"Bob", [], some ⟨daysFromCivil 1990 1 2⟩⟩).get_upcoming_birthdays
        ⟨daysFromCivil 2024 12 28⟩ = .ok [] ∧
    ∀ e ∈ ([] : List Entry), e.name ≠ "Bob" := by
  refine ⟨by decide, ?_⟩
  exact no_year_wraparound ⟨daysFromCivil 2024 12 28⟩
    (AddressBook.empty.add_record ⟨"Bob", [], some ⟨daysFromCivil 1990 1 2⟩⟩)
    ⟨"Bob", [], some ⟨daysFromCivil 1990 1 2⟩⟩
    ⟨daysFromCivil 1990 1 2⟩ ⟨daysFromCivil 2024 1 2⟩
    ⟨by decide, by decide⟩ (by decide) (by decide) (by decide) (by decide)
    [] (by decide)

/-! ## C2: the command loop and escaping exceptions -/

theorem mkName_error_shape (s : String) (e : PyErr) (h : mkName s = .error e) :
    ∃ m, e = .valueError m := by
  unfold mkName at h
  split at h
  · cases h
  · cases h
    exact ⟨_, rfl⟩

theorem mkPhone_error_shape (s : String) (e : PyErr) (h : mkPhone s = .error e) :
    ∃ m, e = .valueError m := by
  unfold mkPhone at h
  split at h
  · cases h
    exact ⟨_, rfl⟩
  · cases h

theorem mkDate_error_shape (y m d : Int) (e : PyErr) (h : mkDate y m d = .error e) :
    ∃ s, e = .valueError s := by
  unfold mkDate at h
  split at h
  · cases h
    exact ⟨_, rfl⟩
  · split at h
    · cases h
      exact ⟨_, rfl⟩
    · split at h
      · cases h
        exact ⟨_, rfl⟩
      · cases h

theorem mkBirthday_error_shape (s : String) (e : PyErr)
    (h : mkBirthday s = .error e) : ∃ m, e = .valueError m := by
  unfold mkBirthday at h
  split at h
  · split at h
    · split at h
      · cases h
      · cases h
        exact ⟨_, rfl⟩
    · cases h
      exact ⟨_, rfl⟩
  · cases h
    exact ⟨_, rfl⟩

theorem mkRecord_error_shape (s : String) (e : PyErr)
    (h : mkRecord s = .error e) : ∃ m, e = .valueError m := by
  unfold mkRecord at h
  cases hn : mkName s with
  | ok v =>
    rw [hn] at h
    cases h
  | error e1 =>
    rw [hn] at h
    cases h
    exact mkName_error_shape s _ hn

theorem add_phone_error_shape (r : Record) (p : String) (e : PyErr)
    (h : r.add_phone p = .error e) : ∃ m, e = .valueError m := by
  unfold Record.add_phone at h
  cases hn : mkPhone p with
  | ok v =>
    rw [hn] at h
    cases h
  | error e1 =>
    rw [hn] at h
    cases h
    exact mkPhone_error_shape p _ hn

theorem add_birthday_error_shape (r : Record) (s : String) (e : PyErr)
    (h : r.add_birthday s = .error e) : ∃ m, e = .valueError m := by
  unfold Record.add_birthday at h
  cases hn : mkBirthday s with
  | ok v =>
    rw [hn] at h
    cases h
  | error e1 =>
    rw [hn] at h
    cases h
    exact mkBirthday_error_shape s _ hn

theorem edit_phone_error_shape (r : Record) (old new1 : String) (e : PyErr)
    (h : (r.edit_phone old new1).2 = some e) : ∃ m, e = .valueError m := by
  unfold Record.edit_phone at h
  split at h
  · split at h
    · cases h
    · rename_i e1 he1
      cases h
      exact mkPhone_error_shape new1 _ he1
  · cases h
    exact ⟨_, rfl⟩

theorem replaceYear_error_shape (b : PyDate) (y : Int) (e : PyErr)
    (h : b.replaceYear y = .error e) : ∃ m, e = .valueError m :=
  mkDate_error_shape y b.month b.day e h

theorem upcomingOne_error_shape (today : PyDate) (r : Record) (e : PyErr)
    (h : upcomingOne today r = .error e) : ∃ m, e = .valueError m := by
  cases hb : r.birthday with
  | none =>
    have hone : upcomingOne today r = .ok [] := by simp only [upcomingOne, hb]
    rw [hone] at h
    cases h
  | some b =>
    cases hy : b.replaceYear today.year with
    | ok occ =>
      rw [upcomingOne_of_occ today r b occ hb hy] at h
      cases h
    | error e1 =>
      have hone : upcomingOne today r = .error e1 := by
        simp only [upcomingOne, hb, hy]
        rfl
      rw [hone] at h
      cases h
      exact replaceYear_error_shape b today.year _ hy

theorem upcomingList_error_shape (today : PyDate) (l : List Record) (e : PyErr)
    (h : upcomingList today l = .error e) : ∃ m, e = .valueError m := by
  induction l with
  | nil => cases h
  | cons a t ih =>
    rw [upcomingList] at h
    cases h1 : upcomingOne today a with
    | error e1 =>
      rw [h1] at h
      cases h
      exact upcomingOne_error_shape today a _ h1
    | ok le =>
      rw [h1] at h
      cases h2 : upcomingList today t with
      | error e2 =>
        revert h
        show ((upcomingList today t) >>= _) = _ → _
        rw [h2]
        intro h
        cases h
        exact ih h2
      | ok tail =>
        revert h
        show ((upcomingList today t) >>= _) = _ → _
        rw [h2]
        intro h
        cases h

/-- A handler result whose possible exception is one of the classes the
`input_error` decorator catches. -/
def handlerOk (h : HandlerResult) : Prop :=
  ∀ e, h.2 = .error e → e.catchable = true

theorem input_error_total (h : HandlerResult) (hc : handlerOk h) :
    ∃ p, input_error h = .ok p := by
  cases h2 : h.2 with
  | ok s => exact ⟨(h.1, s), by unfold input_error; rw [h2]⟩
  | error e =>
    have := hc e h2
    cases e with
    | valueError m => exact ⟨(h.1, m), by unfold input_error; rw [h2]⟩
    | keyError m =>
      exact ⟨(h.1, "Contact is not found"), by unfold input_error; rw [h2]⟩
    | indexError m =>
      exact ⟨(h.1, "Enter user name and phone/birthday"),
        by unfold input_error; rw [h2]⟩
    | osError m => cases this
    | unpicklingError m => cases this

theorem valueError_catchable (e : PyErr) (h : ∃ m, e = .valueError m) :
    e.catchable = true := by
  obtain ⟨m, rfl⟩ := h
  rfl

theorem add_contact_ok (args : List String) (book : AddressBook) :
    handlerOk (add_contact args book) := by
  intro e he
  rcases args with _ | ⟨name, _ | ⟨phone, rest⟩⟩
  · simp only [add_contact] at he
    cases he
    rfl
  · simp only [add_contact] at he
    cases he
    rfl
  · simp only [add_contact] at he
    cases hf : book.find_record name with
    | some r =>
      simp only [hf] at he
      split at he
      · cases ha : r.add_phone phone with
        | ok r1 =>
          simp only [ha] at he
          cases he
        | error e1 =>
          simp only [ha] at he
          cases he
          exact valueError_catchable _ (add_phone_error_shape r phone _ ha)
      · cases he
    | none =>
      simp only [hf] at he
      cases hm : mkRecord name with
      | error e1 =>
        simp only [hm] at he
        cases he
        exact valueError_catchable _ (mkRecord_error_shape name _ hm)
      | ok r =>
        simp only [hm] at he
        split at he
        · cases ha : r.add_phone phone with
          | ok r1 =>
            simp only [ha] at he
            cases he
          | error e1 =>
            simp only [ha] at he
            cases he
            exact valueError_catchable _ (add_phone_error_shape r phone _ ha)
        · cases he

theorem change_contact_ok (args : List String) (book : AddressBook) :
    handlerOk (change_contact args book) := by
  intro e he
  rcases args with _ | ⟨name, _ | ⟨old, _ | ⟨new1, rest⟩⟩⟩
  · simp only [change_contact] at he
    cases he
    rfl
  · simp only [change_contact] at he
    cases he
    rfl
  · simp only [change_contact] at he
    cases he
    rfl
  · simp only [change_contact] at he
    cases hf : book.find_record name with
    | some r =>
      simp only [hf] at he
      cases hedit : r.edit_phone old new1 with
      | mk r1 err =>
        simp only [hedit] at he
        cases err with
        | none => cases he
        | some e1 =>
          cases he
          have h2 : (r.edit_phone old new1).2 = some e := by rw [hedit]
          exact valueError_catchable _ (edit_phone_error_shape r old new1 _ h2)
    | none =>
      simp only [hf] at he
      cases he

theorem phone_contact_ok (args : List String) (book : AddressBook) :
    handlerOk (phone_contact args book) := by
  intro e he
  rcases args with _ | ⟨name, rest⟩
  · simp only [phone_contact] at he
    cases he
    rfl
  · simp only [phone_contact] at he
    cases hf : book.find_record name with
    | some r => simp only [hf] at he; cases he
    | none => simp only [hf] at he; cases he

theorem show_all_contacts_ok (book : AddressBook) :
    handlerOk (show_all_contacts book) := by
  intro e he
  unfold show_all_contacts at he
  split at he
  · cases he
  · cases he

theorem add_birthday_cmd_ok (args : List String) (book : AddressBook) :
    handlerOk (add_birthday_cmd args book) := by
  intro e he
  rcases args with _ | ⟨name, _ | ⟨birthday, rest⟩⟩
  · simp only [add_birthday_cmd] at he
    cases he
    rfl
  · simp only [add_birthday_cmd] at he
    cases he
    rfl
  · simp only [add_birthday_cmd] at he
    cases hf : book.find_record name with
    | some r =>
      simp only [hf] at he
      cases ha : r.add_birthday birthday with
      | ok r1 => simp only [ha] at he; cases he
      | error e1 =>
        simp only [ha] at he
        cases he
        exact valueError_catchable _ (add_birthday_error_shape r birthday _ ha)
    | none =>
      simp only [hf] at he
      cases he

theorem show_birthday_ok (args : List String) (book : AddressBook) :
    handlerOk (show_birthday args book) := by
  intro e he
  rcases args with _ | ⟨name, rest⟩
  · simp only [show_birthday] at he
    cases he
    rfl
  · simp only [show_birthday] at he
    cases hf : book.find_record name with
    | some r => simp only [hf] at he; cases he
    | none => simp only [hf] at he; cases he

theorem birthdays_ok (book : AddressBook) (today : PyDate) :
    handlerOk (birthdays book today) := by
  intro e he
  unfold birthdays at he
  cases hu : book.get_upcoming_birthdays today with
  | ok l =>
    simp only [hu] at he
    split at he
    · cases he
    · cases he
  | error e1 =>
    simp only [hu] at he
    cases he
    exact valueError_catchable _ (upcomingList_error_shape today book.records _ hu)

theorem dispatch_total (today : PyDate) (command : String)
    (args : List String) (book : AddressBook) :
    ∃ out, dispatch today command args book = .ok out := by
  unfold dispatch
  split_ifs with h1 h2 h3 h4 h5 h6 h7 h8 h9
  · exact ⟨_, rfl⟩
  · exact ⟨_, rfl⟩
  · obtain ⟨p, hp⟩ := input_error_total _ (add_contact_ok args book)
    obtain ⟨b, s⟩ := p
    exact ⟨⟨s, b, false⟩, by rw [hp]; rfl⟩
  · obtain ⟨p, hp⟩ := input_error_total _ (change_contact_ok args book)
    obtain ⟨b, s⟩ := p
    exact ⟨⟨s, b, false⟩, by rw [hp]; rfl⟩
  · obtain ⟨p, hp⟩ := input_error_total _ (phone_contact_ok args book)
    obtain ⟨b, s⟩ := p
    exact ⟨⟨s, b, false⟩, by rw [hp]; rfl⟩
  · obtain ⟨p, hp⟩ := input_error_total _ (show_all_contacts_ok book)
    obtain ⟨b, s⟩ := p
    exact ⟨⟨s, b, false⟩, by rw [hp]; rfl⟩
  · obtain ⟨p, hp⟩ := input_error_total _ (add_birthday_cmd_ok args book)
    obtain ⟨b, s⟩ := p
    exact ⟨⟨s, b, false⟩, by rw [hp]; rfl⟩
  · obtain ⟨p, hp⟩ := input_error_total _ (show_birthday_ok args book)
    obtain ⟨b, s⟩ := p
    exact ⟨⟨s, b, false⟩, by rw [hp]; rfl⟩
  · obtain ⟨p, hp⟩ := input_error_total _ (birthdays_ok book today)
    obtain ⟨b, s⟩ := p
    exact ⟨⟨s, b, false⟩, by rw [hp]; rfl⟩
  · exact ⟨_, rfl⟩

/-- C2 counterexample: the empty input line makes the loop body raise an
uncaught `ValueError` from the tuple unpacking in `parse_input` (which
is not wrapped by `input_error`), so an exception does escape for this
input line, contradicting the claim. -/
theorem step_empty_line_raises :
    stepLine ⟨0⟩ "" AddressBook.empty =
      .error (.valueError "not enough values to unpack (expected at least 1, got 0)") := rfl

/-- C2 (amended): for every input line containing at least one
non-whitespace token, no exception escapes the loop body: parsing
succeeds and every handler either returns normally or raises only
`ValueError`/`KeyError`/`IndexError`, which `input_error` converts to a
single message. Empty or all-whitespace lines are the exception: they
raise an uncaught `ValueError` in `parse_input`. -/
theorem step_no_escape_nonempty (today : PyDate) (line : String)
    (book : AddressBook) (h : pySplit line ≠ []) :
    ∃ out, stepLine today line book = .ok out := by
  cases hs : pySplit line with
  | nil => exact absurd hs h
  | cons c args =>
    have hparse : parse_input line = .ok (c.toLower, args) := by
      unfold parse_input
      rw [hs]
    obtain ⟨out, hout⟩ := dispatch_total today c.toLower args book
    refine ⟨out, ?_⟩
    unfold stepLine
    rw [hparse]
    show dispatch today c.toLower args book = .ok out
    exact hout

/-- C2 witness: a one-token line (a command with too few arguments)
still yields a printed line rather than an escaping exception. -/
theorem step_no_escape_nonempty_witness :
    ∃ out, stepLine ⟨0⟩ "phone" AddressBook.empty = .ok out :=
  step_no_escape_nonempty ⟨0⟩ "phone" AddressBook.empty (by decide)

end M8
